import Mathlib

/-
  Verification of the GeniesEnHerbe quiz-buzzer firmware
  (repository vinfort/buzzer_geh, files src/src/GeniesEnHerbe.ino and
  src/GeniesEnHerbe/GeniesEnHerbe.ino).

  The embedding follows the C++ source compiled for the boards named in the
  file headers (Arduino Mega / Arduino Nano, both AVR): there, C `int` is a
  16-bit two-complement integer and `unsigned long` (the type of millis())
  is a 32-bit unsigned integer.  Machine integers are modelled as Nat / Int
  with explicit reductions mod 2^16 and 2^32 at the points where the C code
  stores or converts values.

  The repository holds several revisions of the same sketch:
  - rev MEGA  (src/src lines 1..253):   LED machine, pressed level HIGH,
    debounceDelay 500, buzzers initialised {pin,pinLED,LOW,LOW,0},
    potentiometer-scaled reset delay, no release wait after a manual reset.
  - rev NANO  (src/src lines 254..685): LCD machine, pressed level LOW,
    debounceDelay 500, config menu for the reset delay, release wait.
  - rev MEGA2 (src/src lines 686..1032): LED+LCD machine, pressed level LOW,
    potentiometer delay, no release wait.
  - rev GEH   (src/GeniesEnHerbe/GeniesEnHerbe.ino): LED+LCD machine,
    pressed level LOW, debounceDelay 50, buzzers initialised
    {pin,pinLED,HIGH,LOW,0}, config menu (usePotentiometer = false),
    release wait after a manual reset.
-/

namespace GEH

/-- Arduino constant HIGH. -/
def HIGH : Int := 1

/-- Arduino constant LOW. -/
def LOW : Int := 0

/-- Modulus of the 32-bit `unsigned long` used by millis(). -/
def U32 : Nat := 4294967296

/-- debounceDelay of the src/src revisions (milliseconds). -/
def debounceDelayMega : Nat := 500

/-- debounceDelay of the src/GeniesEnHerbe revision (milliseconds). -/
def debounceDelayGeh : Nat := 50

/-- delayResetMax = 5000 ms (an `unsigned long` constant in the source). -/
def delayResetMax : Nat := 5000

/-- Value stored when an `unsigned long` expression (a Nat) is assigned to a
    C `int` variable: on the AVR targets `int` is 16 bits, so the value is
    truncated mod 2^16 and read back as a two-complement integer. -/
def toInt16 (n : Nat) : Int :=
  if n % 65536 < 32768 then Int.ofNat (n % 65536)
  else Int.ofNat (n % 65536) - 65536

/-- Value obtained when a C `int` (an Int) takes part in `unsigned long`
    arithmetic or comparison: the usual arithmetic conversions reduce it
    mod 2^32. -/
def intToU32 (i : Int) : Nat := (i % (4294967296 : Int)).toNat

/-- 32-bit wraparound subtraction `a - b` between `unsigned long` values;
    arguments are real (unbounded) quantities and are reduced mod 2^32
    exactly as the 32-bit hardware subtraction does. -/
def usub32 (a b : Nat) : Nat :=
  (a % 4294967296 + (4294967296 - b % 4294967296)) % 4294967296

/-- struct Button of the source.  rev NANO omits the pinLED field; it is kept
    here (unused by the rev NANO definitions below) so that a single
    readButtonState embedding serves every revision, whose bodies are
    textually identical. -/
structure Button where
  pinButton : Int
  pinLED : Int
  buttonState : Int
  lastButtonState : Int
  lastDebounceTime : Int
deriving DecidableEq, Repr

/-- Body of readButtonState (identical in every revision up to the value of
    debounceDelay, passed here as D).  `reading` is the digitalRead sample and
    `now` the real time in ms; the two millis() calls inside the body happen
    microseconds apart and are modelled as the same instant.
    `lastDebounceTime` is a C `int`, so the assignment
    `button.lastDebounceTime = millis()` stores `toInt16 now`, and the check
    `(millis() - button.lastDebounceTime) > debounceDelay` converts that `int`
    back to `unsigned long` before the 32-bit subtraction.
    Returns the value returned by the function together with the final state
    of the local parameter copy `button`. -/
def readButtonState (D : Nat) (button : Button) (reading : Int) (now : Nat) :
    Int × Button :=
  let b1 := if reading ≠ button.lastButtonState
            then { button with lastDebounceTime := toInt16 now }
            else button
  let b2 := if usub32 now (intToU32 b1.lastDebounceTime) > D
            then { b1 with buttonState := reading }
            else b1
  let b3 := { b2 with lastButtonState := reading }
  (b3.buttonState, b3)

/-- A call `readButtonState(button)` at a call site of the source: the C++
    parameter `Button button` is declared by value, so the writes performed by
    the body land on a local copy and the struct of the caller is unchanged
    when the call returns.  First component: the returned filtered state;
    second component: the button of the caller after the call. -/
def callRBS (D : Nat) (b : Button) (reading : Int) (now : Nat) : Int × Button :=
  ((readButtonState D b reading now).fst, b)

/-- Successive polls of one button as the main loop performs them: each list
    element is (millis value, raw digitalRead sample); the state of the button
    of the caller is threaded through the calls (and, by-value semantics,
    never changes).  Returns the list of filtered states returned. -/
def pollSeq (D : Nat) (b : Button) : List (Nat × Int) → List Int
  | [] => []
  | (now, raw) :: rest =>
      (callRBS D b raw now).fst :: pollSeq D (callRBS D b raw now).snd rest

/-- numTeams = 2 (all revisions). -/
def numTeams : Nat := 2

/-- numPlayers = 4 (all revisions). -/
def numPlayers : Nat := 4

/-- Order in which the nested for loops of loop() visit the buzzer grid:
    team index ascending, then player index ascending. -/
def scanOrder : List (Nat × Nat) :=
  (List.range numTeams).flatMap fun t => (List.range numPlayers).map fun p => (t, p)

/-- Position of a grid cell in scanOrder. -/
def flatIdx (tp : Nat × Nat) : Nat := numPlayers * tp.1 + tp.2

/-- The buzzer scan of loop(): the nested for loops call readButtonState on
    each buzzer in scanOrder and break out of both loops at the first buzzer
    whose returned state equals the pressed level `lvl` (LOW in the revisions
    with INPUT_PULLUP polarity handled, HIGH in rev MEGA), recording its
    (team, player) pair in (teamBuzz, playerBuzz).  `buttons` gives the stored
    Button structs and `raw` the digitalRead samples of this scan cycle. -/
def scanBuzzers (D : Nat) (lvl : Int) (buttons : Nat → Nat → Button)
    (raw : Nat → Nat → Int) (now : Nat) : Option (Nat × Nat) :=
  scanOrder.find? fun tp =>
    decide ((callRBS D (buttons tp.1 tp.2) (raw tp.1 tp.2) now).fst = lvl)

/-- Condition of the reset-wait loop
    `while ((delayReset < 0) || millis() - timestamp < delayReset)`:
    delayReset is an `int`; in the second disjunct it is converted to
    `unsigned long` for the comparison with the 32-bit difference, but the
    first disjunct short-circuits every negative value before that. -/
def waitContinue (delayReset : Int) (timestamp now : Nat) : Bool :=
  decide (delayReset < 0) || decide (usub32 now timestamp < intToU32 delayReset)

/-- whiteButton of rev MEGA: {7,5,LOW,LOW,0}. -/
def whiteButtonMega : Button := ⟨7, 5, LOW, LOW, 0⟩

/-- whiteButton of rev GEH: {7,5,HIGH,LOW,0}. -/
def whiteButtonGeh : Button := ⟨7, 5, HIGH, LOW, 0⟩

/-- Outcome of one run of the reset-wait loop over a finite trace of poll
    iterations; the unconsumed suffix of the trace is carried so that what
    the controller reads right after re-arming is visible. -/
inductive WaitResult where
  | timeoutExit (rest : List (Nat × Int))
  | manualExit (rest : List (Nat × Int))
  | stillWaiting
deriving DecidableEq, Repr

/-- Reset-wait loop of rev MEGA (src/src lines 207..214): each trace element
    is (millis value, raw whiteButton sample) of one loop iteration.  The
    while condition is evaluated first; if it fails the loop exits by timeout
    (the pending poll is left unconsumed).  Otherwise the body polls the white
    button and breaks on a filtered HIGH; there is no release wait, the break
    returns directly to the re-arming writes. -/
def resetWaitMega (dr : Int) (ts : Nat) : List (Nat × Int) → WaitResult
  | [] => .stillWaiting
  | (now, raw) :: rest =>
      if waitContinue dr ts now = false then .timeoutExit ((now, raw) :: rest)
      else if (callRBS debounceDelayMega whiteButtonMega raw now).fst = HIGH then
        .manualExit rest
      else resetWaitMega dr ts rest

/-- Inner release loop of rev GEH (lines 376..378):
    `while (readButtonState(whiteButton) == LOW) delay(debounceDelay);`
    consumes further polls until one reads a filtered state other than LOW,
    and only then lets the outer break re-arm the machine. -/
def releaseWaitGeh : List (Nat × Int) → WaitResult
  | [] => .stillWaiting
  | (now, raw) :: rest =>
      if (callRBS debounceDelayGeh whiteButtonGeh raw now).fst = LOW then
        releaseWaitGeh rest
      else .manualExit rest

/-- Reset-wait loop of rev GEH (lines 371..381): as in rev MEGA, but a manual
    break first runs the release loop. -/
def resetWaitGeh (dr : Int) (ts : Nat) : List (Nat × Int) → WaitResult
  | [] => .stillWaiting
  | (now, raw) :: rest =>
      if waitContinue dr ts now = false then .timeoutExit ((now, raw) :: rest)
      else if (callRBS debounceDelayGeh whiteButtonGeh raw now).fst = LOW then
        releaseWaitGeh rest
      else resetWaitGeh dr ts rest

/-- Reset-delay computation of the potentiometer revisions (rev MEGA lines
    197..205, rev MEGA2 lines 953..976, rev GEH lines 345..355):
    valPot = analogRead(pinDelay) is a sample in 0..1023; if valPot > 1000 it
    is replaced by -1; then `delayReset = valPot*delayResetMax/1000` where
    valPot is an `int`, delayResetMax an `unsigned long`, so the product and
    quotient are computed in 32-bit unsigned arithmetic and the result is
    stored into the 16-bit `int` delayReset. -/
def computeDelayReset (valPotRead : Nat) : Int :=
  let valPot : Int := if (1000 : Int) < valPotRead then -1 else valPotRead
  toInt16 (intToU32 valPot * delayResetMax % 4294967296 / 1000)

/-- State of the whiteButton global during the config-menu loop of rev GEH:
    lines 293..294 assign buttonState = HIGH and lastButtonState = HIGH at the
    top of every iteration (and readButtonState, taking its argument by value,
    never writes the global), so every menu poll sees {7,5,HIGH,HIGH,0}. -/
def whiteButtonMenuGeh : Button := ⟨7, 5, HIGH, HIGH, 0⟩

/-- Confirmation test of one rev GEH menu iteration (line 307):
    readButtonState(whiteButton) == LOW. -/
def menuConfirmGeh (now : Nat) (raw : Int) : Bool :=
  decide ((callRBS debounceDelayGeh whiteButtonMenuGeh raw now).fst = LOW)

/-- Step applied to delayReset by one rev GEH menu iteration without a
    confirmation (lines 314..325); the comparisons against the
    `unsigned long` constant delayResetMax convert delayReset to 32 bits,
    but only after `delayReset < 0` has filtered out the negative sentinel. -/
def menuStep (d : Int) : Int :=
  if d < 0 then 1000
  else if intToU32 d < delayResetMax then d + 1000
  else if intToU32 d = delayResetMax then d * 2
  else if delayResetMax < intToU32 d then -1
  else d

/-- Config-menu loop of rev GEH (lines 292..326) over a trace of poll
    iterations: each iteration redisplays, sleeps, then polls the white
    button; a confirming poll breaks with the current value, otherwise the
    value is stepped.  Returns the confirmed delayReset, or none if the trace
    ends inside the menu. -/
def menuLoopGeh (d : Int) : List (Nat × Int) → Option Int
  | [] => none
  | (now, raw) :: rest =>
      if menuConfirmGeh now raw then some d else menuLoopGeh (menuStep d) rest

/-- whiteButton of rev NANO: {pin_reset = 12, HIGH, LOW, 0} (the rev NANO
    Button struct has no pinLED field; the unused placeholder 0 fills it). -/
def whiteButtonNano : Button := ⟨12, 0, HIGH, LOW, 0⟩

/-- Confirmation test of one rev NANO menu iteration (line 580). -/
def menuConfirmNano (now : Nat) (raw : Int) : Bool :=
  decide ((callRBS debounceDelayMega whiteButtonNano raw now).fst = LOW)

/-- Step applied to delayReset by one rev NANO menu iteration without a
    confirmation (lines 591..599); d2 is the `int` delayReset2 computed once
    at menu entry, so all comparisons are signed. -/
def menuStepNano (d2 d : Int) : Int :=
  if d < 0 then 1000
  else if d < d2 then d + 1000
  else if d2 ≤ d then -1
  else d

/-- Config-menu loop of rev NANO (lines 563..600) after delayReset2 has been
    set; same shape as rev GEH. -/
def menuLoopNanoGo (d2 d : Int) : List (Nat × Int) → Option Int
  | [] => none
  | (now, raw) :: rest =>
      if menuConfirmNano now raw then some d
      else menuLoopNanoGo d2 (menuStepNano d2 d) rest

/-- Config-menu of rev NANO including the entry assignment
    `delayReset2 = delayReset*2` (line 562). -/
def menuLoopNano (d : Int) (polls : List (Nat × Int)) : Option Int :=
  menuLoopNanoGo (d * 2) d polls

/-- Step function as the specification words it (a refinement comparison
    definition, not translated from the source).  Modelled from the spec:
    cyclic, increase by a fixed increment (1000 ms, the increment the code
    uses) up to a configured ceiling, then wrap to the infinite sentinel -1,
    then restart from the minimum 1000 ms.  Parametrized by the ceiling. -/
def specMenuStep (ceiling d : Int) : Int :=
  if d < 0 then 1000
  else if d < ceiling then d + 1000
  else -1

/-- buzzers grid of rev MEGA (src/src lines 110..124): every Button is
    initialised with buttonState = LOW, lastButtonState = LOW,
    lastDebounceTime = 0.  Out-of-range indices (never visited by the loops)
    default to the first cell. -/
def buzzersMega : Nat → Nat → Button := fun t p =>
  match t, p with
  | 0, 0 => ⟨23, 53, LOW, LOW, 0⟩
  | 0, 1 => ⟨25, 51, LOW, LOW, 0⟩
  | 0, 2 => ⟨27, 49, LOW, LOW, 0⟩
  | 0, 3 => ⟨29, 47, LOW, LOW, 0⟩
  | 1, 0 => ⟨31, 45, LOW, LOW, 0⟩
  | 1, 1 => ⟨33, 43, LOW, LOW, 0⟩
  | 1, 2 => ⟨35, 41, LOW, LOW, 0⟩
  | 1, 3 => ⟨37, 39, LOW, LOW, 0⟩
  | _, _ => ⟨23, 53, LOW, LOW, 0⟩

/-- buzzers grid of rev GEH (lines 140..154): every Button is initialised
    with buttonState = HIGH, lastButtonState = LOW, lastDebounceTime = 0. -/
def buzzersGeh : Nat → Nat → Button := fun t p =>
  match t, p with
  | 0, 0 => ⟨31, 53, HIGH, LOW, 0⟩
  | 0, 1 => ⟨33, 51, HIGH, LOW, 0⟩
  | 0, 2 => ⟨35, 49, HIGH, LOW, 0⟩
  | 0, 3 => ⟨37, 47, HIGH, LOW, 0⟩
  | 1, 0 => ⟨23, 45, HIGH, LOW, 0⟩
  | 1, 1 => ⟨25, 43, HIGH, LOW, 0⟩
  | 1, 2 => ⟨27, 41, HIGH, LOW, 0⟩
  | 1, 3 => ⟨29, 39, HIGH, LOW, 0⟩
  | _, _ => ⟨31, 53, HIGH, LOW, 0⟩

/-- Output events of the rev MEGA sketch that matter to the indicator
    discipline: digitalWrite on the green LED pin (pinGreenLED), digitalWrite
    on a buzzer LED pin, and the tone call. -/
inductive Ev where
  | writeGreen (v : Int)
  | writeLED (pin : Int) (v : Int)
  | toneE
deriving DecidableEq, Repr

/-- Writes emitted by setup() of rev MEGA (lines 129..150) in order: one
    digitalWrite(pinLED, LOW) per buzzer inside the init loops, then, after
    the startup delay, digitalWrite(pinGreenLED, HIGH) as the last action. -/
def setupEvMega : List Ev :=
  (scanOrder.map fun tp => Ev.writeLED (buzzersMega tp.1 tp.2).pinLED LOW)
    ++ [Ev.writeGreen HIGH]

/-- One iteration of loop() of rev MEGA (lines 152..222) as the list of
    events it emits.  Inputs: the digitalRead samples `raw` of the scan, the
    millis value `now` of the scan, the analogRead sample `pot`, the millis
    value `lockT` stored in `timestamp` when the buzz is detected, and the
    reset-wait poll trace.  If no buzzer reads pressed (HIGH in this
    revision) the iteration emits nothing; on a buzz it writes green LOW,
    the winner LED HIGH, plays the tone, runs the reset wait (which emits
    nothing), and, if the wait exits, writes green HIGH and the winner LED
    LOW; if the trace ends inside the wait the trailing writes are not
    reached. -/
def loopIterMega (raw : Nat → Nat → Int) (now : Nat) (pot : Nat) (lockT : Nat)
    (waitPolls : List (Nat × Int)) : List Ev :=
  match scanBuzzers debounceDelayMega HIGH buzzersMega raw now with
  | none => []
  | some (t, p) =>
      let locked : List Ev :=
        [Ev.writeGreen LOW, Ev.writeLED (buzzersMega t p).pinLED HIGH, Ev.toneE]
      match resetWaitMega (computeDelayReset pot) lockT waitPolls with
      | WaitResult.stillWaiting => locked
      | _ =>
          locked ++ [Ev.writeGreen HIGH, Ev.writeLED (buzzersMega t p).pinLED LOW]

/-- Green-LED writes among a list of events. -/
def greenOf : Ev → Option Int
  | Ev.writeGreen v => some v
  | _ => none

/-- Green-LED level after a list of events has been emitted, starting from
    level g. -/
def greenAfter (g : Int) (evs : List Ev) : Int :=
  evs.foldl (fun g e => match e with | Ev.writeGreen v => v | _ => g) g

/-- The value `millis() - button.lastDebounceTime` computed at real time
    `now` when the assignment `button.lastDebounceTime = millis()` was
    executed at real time `storedAt`: the store truncates the 32-bit clock
    into a 16-bit `int`, the comparison converts it back to 32 bits. -/
def debounceElapsed (storedAt now : Nat) : Nat :=
  usub32 now (intToU32 (toInt16 storedAt))

/- ------------------------------------------------------------------ -/
/- Helper lemmas                                                       -/
/- ------------------------------------------------------------------ -/

lemma usub32_sub (a b : Nat) (h1 : b ≤ a) (h2 : a < b + 4294967296) :
    usub32 a b = a - b := by
  unfold usub32
  omega

lemma intToU32_ofNat (n : Nat) (h : n < 4294967296) :
    intToU32 (Int.ofNat n) = n := by
  unfold intToU32
  rw [show Int.ofNat n = (n : Int) from rfl]
  omega

lemma intToU32_toNat (d : Int) (h0 : 0 ≤ d) (h1 : d < 4294967296) :
    intToU32 d = d.toNat := by
  unfold intToU32
  rw [Int.emod_eq_of_lt h0 h1]

lemma callRBS_fst (D : Nat) (b : Button) (r : Int) (now : Nat) :
    (callRBS D b r now).fst = (readButtonState D b r now).fst := rfl

lemma callRBS_snd (D : Nat) (b : Button) (r : Int) (now : Nat) :
    (callRBS D b r now).snd = b := rfl

lemma readButtonState_fst (D : Nat) (b : Button) (r : Int) (now : Nat) :
    (readButtonState D b r now).fst =
      if usub32 now (intToU32 (if r ≠ b.lastButtonState then toInt16 now
                               else b.lastDebounceTime)) > D
      then r else b.buttonState := by
  unfold readButtonState
  dsimp only
  split <;> split <;> rfl

lemma inner_if_low (pb pl : Int) (now : Nat) :
    (if LOW ≠ (⟨pb, pl, HIGH, LOW, 0⟩ : Button).lastButtonState then toInt16 now
     else (⟨pb, pl, HIGH, LOW, 0⟩ : Button).lastDebounceTime) = (0 : Int) := by
  rw [if_neg (fun h => h rfl)]

lemma callRBS_init_passthrough (pb pl r : Int) (D now : Nat) (hD : D < now)
    (hlt : now < 4294967296) (hr : r = HIGH ∨ r = LOW) :
    (callRBS D ⟨pb, pl, HIGH, LOW, 0⟩ r now).fst = r := by
  rcases hr with hr | hr <;> subst hr <;> rewrite [callRBS_fst, readButtonState_fst]
  · split <;> split <;> rfl
  · have hcomm : usub32 now (intToU32 (0 : Int)) > D := by
      rw [show intToU32 (0 : Int) = 0 by decide,
          usub32_sub now 0 (Nat.zero_le _) (by omega)]
      exact hD
    rewrite [inner_if_low pb pl now, if_pos hcomm]
    rfl

lemma find?_of_sorted {α : Type} (f : α → Nat) (q : α → Bool) (l : List α) (a : α)
    (ha : a ∈ l) (hq : q a = true)
    (sorted : l.Pairwise fun x y => f x < f y)
    (hbef : ∀ x ∈ l, f x < f a → q x = false) :
    l.find? q = some a := by
  induction l with
  | nil => cases ha
  | cons b bs ih =>
      rcases List.mem_cons.mp ha with hab | hmem
      · subst hab
        exact List.find?_cons_of_pos _ hq
      · by_cases hqb : q b = true
        · have hlt := (List.pairwise_cons.mp sorted).1 a hmem
          have := hbef b (List.mem_cons_self b bs) hlt
          rw [this] at hqb
          cases hqb
        · rw [List.find?_cons_of_neg _ (by simpa using hqb)]
          exact ih hmem (List.pairwise_cons.mp sorted).2
            fun x hx hl => hbef x (List.mem_cons_of_mem _ hx) hl

lemma mem_scanOrder (t p : Nat) (ht : t < numTeams) (hp : p < numPlayers) :
    (t, p) ∈ scanOrder := by
  unfold numTeams at ht
  unfold numPlayers at hp
  interval_cases t <;> interval_cases p <;> decide

lemma scanOrder_sorted : scanOrder.Pairwise fun x y => flatIdx x < flatIdx y := by
  decide

/- ------------------------------------------------------------------ -/
/- Claim theorems                                                      -/
/- ------------------------------------------------------------------ -/

/-- Claim C1 (code bug evaluation).  The filtered state returned by
    readButtonState is claimed never to change during a run of identical raw
    samples shorter than the debounce interval.  Because the Button parameter
    is passed by value, the caller state threaded by pollSeq never changes,
    and on the rev GEH initial state {HIGH,LOW,0} the returned state follows
    the raw sample immediately: polled at 100 ms reading LOW and at 101 ms
    reading HIGH, the returned sequence is [LOW, HIGH] although the HIGH run
    is only 1 ms old, far below debounceDelay = 50 ms. -/
theorem debounce_bypass_value_param :
    pollSeq debounceDelayGeh ⟨31, 53, HIGH, LOW, 0⟩ [(100, LOW), (101, HIGH)]
      = [LOW, HIGH] ∧ 101 - 100 < debounceDelayGeh := by
  decide

/-- Claim C2 (code bug evaluation).  readButtonState is claimed to update the
    callers lastButtonState on every call.  At the concrete call with stored
    state {31,53,HIGH,LOW,0}, reading HIGH, millis 1000, the local copy does
    receive lastButtonState = HIGH, but the by-value call leaves the caller
    struct completely unchanged, lastButtonState still LOW. -/
theorem byValue_discards_bookkeeping :
    (callRBS debounceDelayGeh ⟨31, 53, HIGH, LOW, 0⟩ HIGH 1000).snd
        = ⟨31, 53, HIGH, LOW, 0⟩ ∧
    (readButtonState debounceDelayGeh ⟨31, 53, HIGH, LOW, 0⟩ HIGH 1000).snd.lastButtonState
        = HIGH ∧
    (callRBS debounceDelayGeh ⟨31, 53, HIGH, LOW, 0⟩ HIGH 1000).snd.lastButtonState
        = LOW := by
  decide

/-- Claim C8 (code bug evaluation).  The debounce elapsed-time check is
    claimed to be wraparound-safe and to yield the true elapsed time.  But
    lastDebounceTime is a 16-bit `int`: at the first poll after the 35 s
    startup delay (millis = 35000), a raw change stores toInt16 35000 and the
    very same call computes an elapsed time of 65536 ms where the true
    elapsed time is 0 ms; 65536 > debounceDelay = 500, so rev MEGA commits
    the sample with no debounce filtering at all. -/
theorem int16_timestamp_wrong_elapsed :
    debounceElapsed 35000 35000 = 65536 ∧ 35000 - 35000 = 0 ∧
    debounceDelayMega < 65536 ∧
    (readButtonState debounceDelayMega whiteButtonMega HIGH 35000).fst = HIGH := by
  decide

/-- Claim C9 (counterexample).  The claim says every call made more than
    debounceDelay ms after clock zero returns the instantaneous raw sample.
    For the rev MEGA buzzers, initialised {LOW,LOW,0}, a call at millis 1000
    (> debounceDelay = 500) reading HIGH returns LOW, not the raw sample. -/
theorem mega_init_masks_raw :
    (callRBS debounceDelayMega ⟨23, 53, LOW, LOW, 0⟩ HIGH 1000).fst = LOW ∧
    debounceDelayMega < 1000 ∧ LOW ≠ HIGH := by
  decide

/-- Claim C9 (amended).  readButtonState takes its Button by value, so no
    call modifies the caller struct, and any sequence of polls leaves the
    stored button (hence its lastDebounceTime, initially 0) unchanged; and
    for a button whose stored state is buttonState = HIGH,
    lastButtonState = LOW (the rev GEH initialisers), every call made more
    than debounceDelay ms after clock zero (and before the 32-bit clock
    wraps) returns the instantaneous raw sample. -/
theorem byValue_raw_passthrough :
    (∀ (D : Nat) (b : Button) (r : Int) (now : Nat),
        (callRBS D b r now).snd = b) ∧
    (∀ (D : Nat) (b : Button) (polls : List (Nat × Int)),
        polls.foldl (fun st x => (callRBS D st x.2 x.1).snd) b = b) ∧
    (∀ (pb pl r : Int) (D now : Nat), D < now → now < 4294967296 →
        r = HIGH ∨ r = LOW →
        (callRBS D ⟨pb, pl, HIGH, LOW, 0⟩ r now).fst = r) := by
  refine ⟨fun D b r now => rfl, ?_, callRBS_init_passthrough⟩
  intro D b polls
  induction polls with
  | nil => rfl
  | cons x xs ih => exact ih

/-- Claim C9 witness: the amended theorem at the rev GEH whiteButton state,
    debounceDelay 50, millis 1000, raw sample LOW. -/
theorem byValue_raw_passthrough_witness :
    debounceDelayGeh < 1000 ∧ (1000 : Nat) < 4294967296 ∧
    (callRBS debounceDelayGeh ⟨7, 5, HIGH, LOW, 0⟩ LOW 1000).fst = LOW :=
  ⟨by decide, by decide,
    byValue_raw_passthrough.2.2 7 5 LOW debounceDelayGeh 1000 (by decide) (by decide)
      (Or.inr rfl)⟩

/-- Claim C3.  In the Idle scan, buzzers are polled in scanOrder (team
    ascending, then player ascending); if the buzzer at (t, p) reads the
    pressed level and every buzzer strictly earlier in scanOrder does not,
    then the scan records exactly (t, p) as the winner; moreover the result
    does not depend on the readings of the buzzers after (t, p) in scan order
    (they are not evaluated: any samples rawB agreeing with raw up to (t, p)
    give the same winner), so re-running an identical input sequence yields
    the same winner.  The pressed level lvl is LOW in rev GEH and rev MEGA2
    and HIGH in rev MEGA. -/
theorem scan_first_hit_wins (D : Nat) (lvl : Int) (buttons : Nat → Nat → Button)
    (raw rawB : Nat → Nat → Int) (now : Nat) (t p : Nat)
    (ht : t < numTeams) (hp : p < numPlayers)
    (hpressed : (callRBS D (buttons t p) (raw t p) now).fst = lvl)
    (hbefore : ∀ tp ∈ scanOrder, flatIdx tp < flatIdx (t, p) →
        (callRBS D (buttons tp.1 tp.2) (raw tp.1 tp.2) now).fst ≠ lvl)
    (hagree : ∀ tp ∈ scanOrder, flatIdx tp ≤ flatIdx (t, p) →
        rawB tp.1 tp.2 = raw tp.1 tp.2) :
    scanBuzzers D lvl buttons raw now = some (t, p) ∧
    scanBuzzers D lvl buttons rawB now = some (t, p) := by
  have hmem := mem_scanOrder t p ht hp
  constructor
  · exact find?_of_sorted flatIdx _ scanOrder (t, p) hmem
      (decide_eq_true hpressed) scanOrder_sorted
      fun x hx hl => decide_eq_false (hbefore x hx hl)
  · refine find?_of_sorted flatIdx _ scanOrder (t, p) hmem
      ?_ scanOrder_sorted fun x hx hl => ?_
    · refine decide_eq_true ?_
      rw [hagree (t, p) hmem (le_refl _)]
      exact hpressed
    · refine decide_eq_false ?_
      rw [hagree x hx (Nat.le_of_lt hl)]
      exact hbefore x hx hl

/-- Claim C3 witness: rev GEH grid, buzzer (1, 2) held LOW (pressed) and all
    earlier buzzers reading HIGH at millis 1000; the samples of the buzzers
    after (1, 2) differ between the two runs and the winner is (1, 2) in
    both. -/
theorem scan_first_hit_wins_witness :
    scanBuzzers debounceDelayGeh LOW buzzersGeh
      (fun t p => if t = 1 ∧ p = 2 then LOW else HIGH) 1000 = some (1, 2) ∧
    scanBuzzers debounceDelayGeh LOW buzzersGeh
      (fun t p => if t = 1 ∧ p ≥ 2 then LOW else HIGH) 1000 = some (1, 2) :=
  scan_first_hit_wins debounceDelayGeh LOW buzzersGeh
    (fun t p => if t = 1 ∧ p = 2 then LOW else HIGH)
    (fun t p => if t = 1 ∧ p ≥ 2 then LOW else HIGH)
    1000 1 2 (by decide) (by decide) (by decide)
    (by decide) (by decide)

/-- Claim C4.  The reset-wait condition
    `while ((delayReset < 0) || millis() - timestamp < delayReset)`:
    for a finite (nonnegative) delayReset, and absent a manual reset, the
    loop keeps running exactly while now < timestamp + delayReset, so the
    automatic return to Idle happens at the first poll at or after
    timestamp + delayReset and never strictly before; for the negative
    infinite sentinel the condition is always true, so the automatic timeout
    never fires and only the white-button break can end the wait. -/
theorem reset_deadline_guard :
    (∀ (dr : Int) (ts now : Nat), 0 ≤ dr → dr < 4294967296 →
        ts ≤ now → now < ts + 4294967296 →
        (waitContinue dr ts now = false ↔ ts + dr.toNat ≤ now)) ∧
    (∀ (dr : Int) (ts now : Nat), dr < 0 → waitContinue dr ts now = true) := by
  constructor
  · intro dr ts now h0 h1 h2 h3
    unfold waitContinue
    rw [usub32_sub now ts h2 (by omega), intToU32_toNat dr h0 h1]
    simp only [Bool.or_eq_false_iff, decide_eq_false_iff_not, not_lt]
    omega
  · intro dr ts now h
    unfold waitContinue
    simp [h]

/-- Claim C4 witness: delayReset 3000, lock at millis 1000: the wait still
    runs at millis 3999 and stops at millis 4000; the sentinel -1 keeps the
    wait running even 10^9 ms later. -/
theorem reset_deadline_guard_witness :
    waitContinue 3000 1000 3999 = true ∧ waitContinue 3000 1000 4000 = false ∧
    waitContinue (-1) 1000 1000000000 = true := by
  refine ⟨?_, ?_, reset_deadline_guard.2 (-1) 1000 1000000000 (by decide)⟩
  · by_contra hc
    have := (reset_deadline_guard.1 3000 1000 3999 (by decide) (by decide)
      (by decide) (by decide)).mp (by simpa using hc)
    omega
  · exact (reset_deadline_guard.1 3000 1000 4000 (by decide) (by decide)
      (by decide) (by decide)).mpr (by decide)

lemma toInt16_small (n : Nat) (h : n < 32768) : toInt16 n = Int.ofNat n := by
  unfold toInt16
  rw [Nat.mod_eq_of_lt (by omega), if_pos h]

lemma potDelay_inRange (v : Nat) (hv : v ≤ 1000) : computeDelayReset v = 5 * v := by
  unfold computeDelayReset
  rw [if_neg (by omega)]
  dsimp only
  have h1 : intToU32 v * delayResetMax % 4294967296 / 1000 = 5 * v := by
    unfold intToU32 delayResetMax
    omega
  rw [h1, toInt16_small (5 * v) (by omega)]
  rw [show Int.ofNat (5 * v) = ((5 * v : Nat) : Int) from rfl]
  push_cast
  ring

/-- Claim C5 (counterexample).  The claim says the controller waits for the
    reset button to read released before re-arming.  In rev MEGA there is no
    release wait: with the sentinel delay, lock at millis 35000 and the white
    button held (filtered HIGH at every poll), the wait loop re-arms right at
    the first poll while the very next poll still reads the button as
    pressed. -/
theorem mega_rearm_while_pressed :
    resetWaitMega (-1) 35000 [(35000, HIGH), (35001, HIGH)]
        = WaitResult.manualExit [(35001, HIGH)] ∧
    (callRBS debounceDelayMega whiteButtonMega HIGH 35001).fst = HIGH := by
  decide

/-- Claim C5 (amended).  In the rev GEH reset wait: (1) at the first poll
    whose filtered white-button state reads LOW (pressed) — while every
    earlier poll kept the wait running — the wait ends at that very poll,
    whatever the timer state: either the timeout fires there or the manual
    branch is taken and control moves to the release loop; (2) the release
    loop never re-arms while the button still reads pressed: if every
    remaining poll reads LOW it stays waiting; (3) a held press (raw LOW) is
    read as pressed at any poll later than debounceDelay, so the wait ends at
    the first poll of the press, within one debounce interval of the press
    being held.  Rev MEGA, by contrast, re-arms immediately after the manual
    break (see the counterexample). -/
theorem manual_reset_ends_wait :
    (∀ (dr : Int) (ts : Nat) (pre : List (Nat × Int)) (now : Nat) (raw : Int)
        (rest : List (Nat × Int)),
      (∀ x ∈ pre, waitContinue dr ts x.1 = true ∧
          (callRBS debounceDelayGeh whiteButtonGeh x.2 x.1).fst ≠ LOW) →
      (callRBS debounceDelayGeh whiteButtonGeh raw now).fst = LOW →
      resetWaitGeh dr ts (pre ++ (now, raw) :: rest)
          = WaitResult.timeoutExit ((now, raw) :: rest) ∨
      resetWaitGeh dr ts (pre ++ (now, raw) :: rest) = releaseWaitGeh rest) ∧
    (∀ polls : List (Nat × Int),
      (∀ x ∈ polls, (callRBS debounceDelayGeh whiteButtonGeh x.2 x.1).fst = LOW) →
      releaseWaitGeh polls = WaitResult.stillWaiting) ∧
    (∀ now : Nat, debounceDelayGeh < now → now < 4294967296 →
      (callRBS debounceDelayGeh whiteButtonGeh LOW now).fst = LOW) := by
  refine ⟨?_, ?_, ?_⟩
  · intro dr ts pre now raw rest hpre hlow
    induction pre with
    | nil =>
        cases hwc : waitContinue dr ts now with
        | false => left; simp [resetWaitGeh, hwc]
        | true => right; simp [resetWaitGeh, hwc, hlow]
    | cons x xs ih =>
        have hx := hpre x (List.mem_cons_self x xs)
        have hys := fun y hy => hpre y (List.mem_cons_of_mem x hy)
        rcases x with ⟨xn, xr⟩
        simpa [resetWaitGeh, hx.1, hx.2] using ih hys
  · intro polls hall
    induction polls with
    | nil => rfl
    | cons x xs ih =>
        have hx := hall x (List.mem_cons_self x xs)
        have hrest := fun y hy => hall y (List.mem_cons_of_mem x hy)
        rcases x with ⟨xn, xr⟩
        simpa [releaseWaitGeh, hx] using ih hrest
  · intro now hD hlt
    exact callRBS_init_passthrough 7 5 LOW debounceDelayGeh now hD hlt (Or.inr rfl)

/-- Claim C5 witness: delay 3000, lock at 35000; the poll at 35001 reads HIGH
    (wait keeps running), the poll at 35002 reads LOW and ends the wait. -/
theorem manual_reset_ends_wait_witness :
    (callRBS debounceDelayGeh whiteButtonGeh LOW 35002).fst = LOW ∧
    (resetWaitGeh 3000 35000 [(35001, HIGH), (35002, LOW)]
        = WaitResult.timeoutExit [(35002, LOW)] ∨
     resetWaitGeh 3000 35000 [(35001, HIGH), (35002, LOW)] = releaseWaitGeh []) :=
  ⟨by decide,
   manual_reset_ends_wait.1 3000 35000 [(35001, HIGH)] 35002 LOW []
     (by decide) (by decide)⟩

lemma potDelay_sentinel (v : Nat) (hv : 1000 < v) : computeDelayReset v = -30414 := by
  unfold computeDelayReset
  rw [if_pos (by exact_mod_cast hv)]
  decide

/-- Claim C6.  In the potentiometer variant the reset delay is computed once
    per buzz from the analog sample v: for v in 0..1000 it is the linear
    scaling v * delayResetMax / 1000 = 5 * v milliseconds exactly, and every
    sample strictly above 1000 is first replaced by -1, whose journey through
    the 32-bit unsigned product, the division, and the 16-bit int store lands
    on -30414: a negative value, which the reset-wait condition treats as the
    infinite sentinel, never firing the automatic timeout. -/
theorem pot_scaling :
    (∀ v : Nat, v ≤ 1000 → computeDelayReset v = 5 * v) ∧
    (∀ v : Nat, 1000 < v → computeDelayReset v = -30414 ∧ computeDelayReset v < 0) ∧
    (∀ (v ts now : Nat), 1000 < v → waitContinue (computeDelayReset v) ts now = true) := by
  refine ⟨potDelay_inRange, fun v hv => ⟨potDelay_sentinel v hv, ?_⟩,
    fun v ts now hv => ?_⟩
  · rw [potDelay_sentinel v hv]; norm_num
  · rw [potDelay_sentinel v hv]
    unfold waitContinue
    simp [show ((-30414 : Int) < 0) by norm_num]

/-- Claim C7 (counterexample).  The claim describes the menu step as a fixed
    increment up to a configured ceiling followed by a wrap to the sentinel.
    In rev GEH the increment is 1000 (1000 steps to 2000, 4000 to 5000), yet
    the step from the ceiling delayResetMax = 5000 is a doubling to 10000:
    neither the fixed increment nor the sentinel, and different from the
    spec-worded step function for either natural choice of ceiling. -/
theorem menu_step_not_fixed_increment :
    menuStep 1000 = 2000 ∧ menuStep 4000 = 5000 ∧ menuStep 5000 = 10000 ∧
    menuStep 5000 ≠ 5000 + 1000 ∧ menuStep 5000 ≠ -1 ∧
    specMenuStep 5000 5000 = -1 ∧ specMenuStep 10000 5000 = 6000 ∧
    menuStep 5000 ≠ specMenuStep 5000 5000 ∧
    menuStep 5000 ≠ specMenuStep 10000 5000 := by
  decide

lemma menuLoopNanoGo_roundtrip (d2 : Int) (pre : List (Nat × Int)) :
    ∀ (d : Int) (now : Nat) (raw : Int) (rest : List (Nat × Int)),
      (∀ x ∈ pre, menuConfirmNano x.1 x.2 = false) →
      menuConfirmNano now raw = true →
      menuLoopNanoGo d2 d (pre ++ (now, raw) :: rest)
        = some ((menuStepNano d2)^[pre.length] d) := by
  induction pre with
  | nil =>
      intro d now raw rest hpre hconf
      simp [menuLoopNanoGo, hconf]
  | cons x xs ih =>
      intro d now raw rest hpre hconf
      have hx := hpre x (List.mem_cons_self x xs)
      have hrest := fun y hy => hpre y (List.mem_cons_of_mem x hy)
      rcases x with ⟨xn, xr⟩
      have hstep := ih (menuStepNano d2 d) now raw rest hrest hconf
      simp only [List.cons_append, menuLoopNanoGo, hx, Bool.false_eq_true, if_false,
        List.length_cons, Function.iterate_succ_apply]
      exact hstep

lemma menuLoopGeh_roundtrip (pre : List (Nat × Int)) :
    ∀ (d : Int) (now : Nat) (raw : Int) (rest : List (Nat × Int)),
      (∀ x ∈ pre, menuConfirmGeh x.1 x.2 = false) →
      menuConfirmGeh now raw = true →
      menuLoopGeh d (pre ++ (now, raw) :: rest)
        = some (menuStep^[pre.length] d) := by
  induction pre with
  | nil =>
      intro d now raw rest hpre hconf
      simp [menuLoopGeh, hconf]
  | cons x xs ih =>
      intro d now raw rest hpre hconf
      have hx := hpre x (List.mem_cons_self x xs)
      have hrest := fun y hy => hpre y (List.mem_cons_of_mem x hy)
      rcases x with ⟨xn, xr⟩
      have hstep := ih (menuStep d) now raw rest hrest hconf
      simp only [List.cons_append, menuLoopGeh, hx, Bool.false_eq_true, if_false,
        List.length_cons, Function.iterate_succ_apply]
      exact hstep

/-- Claim C7 (amended).  Each menu iteration without a confirming poll steps
    the candidate delayReset by the deterministic cyclic step of its revision
    (rev GEH: negative to 1000, below delayResetMax +1000, at delayResetMax
    doubled, above it the sentinel -1; rev NANO: negative to 1000, below
    2 x entry value +1000, at or above it the sentinel -1), and a run of N
    non-confirming iterations followed by a confirming press yields exactly
    the N-fold application of that step to the entry value — including the
    wraparound through the sentinel, as the 7-step cycle from 5000 back to
    5000 in rev GEH shows. -/
theorem config_menu_roundtrip :
    (∀ (d : Int) (pre : List (Nat × Int)) (now : Nat) (raw : Int)
        (rest : List (Nat × Int)),
      (∀ x ∈ pre, menuConfirmGeh x.1 x.2 = false) →
      menuConfirmGeh now raw = true →
      menuLoopGeh d (pre ++ (now, raw) :: rest)
        = some (menuStep^[pre.length] d)) ∧
    (∀ (d : Int) (pre : List (Nat × Int)) (now : Nat) (raw : Int)
        (rest : List (Nat × Int)),
      (∀ x ∈ pre, menuConfirmNano x.1 x.2 = false) →
      menuConfirmNano now raw = true →
      menuLoopNano d (pre ++ (now, raw) :: rest)
        = some ((menuStepNano (d * 2))^[pre.length] d)) ∧
    menuStep^[7] 5000 = 5000 := by
  refine ⟨?_, ?_, by decide⟩
  · intro d pre now raw rest hpre hconf
    exact menuLoopGeh_roundtrip pre d now raw rest hpre hconf
  · intro d pre now raw rest hpre hconf
    exact menuLoopNanoGo_roundtrip (d * 2) pre d now raw rest hpre hconf

/-- Claim C7 witness: entry value 5000 in rev GEH (3000 in rev NANO), one
    non-confirming poll then a confirming one: the confirmed value is one
    step of the respective cyclic function. -/
theorem config_menu_roundtrip_witness :
    menuConfirmGeh 40000 HIGH = false ∧ menuConfirmGeh 40001 LOW = true ∧
    menuLoopGeh 5000 [(40000, HIGH), (40001, LOW)] = some (menuStep^[1] 5000) ∧
    menuConfirmNano 40000 HIGH = false ∧ menuConfirmNano 40001 LOW = true ∧
    menuLoopNano 3000 [(40000, HIGH), (40001, LOW)]
      = some ((menuStepNano (3000 * 2))^[1] 3000) :=
  ⟨by decide, by decide,
   config_menu_roundtrip.1 5000 [(40000, HIGH)] 40001 LOW [] (by decide) (by decide),
   by decide, by decide,
   config_menu_roundtrip.2.1 3000 [(40000, HIGH)] 40001 LOW [] (by decide) (by decide)⟩

/-- Claim C6 witness: sample 500 gives 2500 ms; sample 1001 gives the
    negative sentinel and a wait condition that never turns false. -/
theorem pot_scaling_witness :
    (500 : Nat) ≤ 1000 ∧ computeDelayReset 500 = 5 * 500 ∧
    (1000 : Nat) < 1001 ∧ computeDelayReset 1001 = -30414 ∧
    waitContinue (computeDelayReset 1001) 35000 999999999 = true :=
  ⟨by decide, pot_scaling.1 500 (by decide), by decide,
   (pot_scaling.2.1 1001 (by decide)).1,
   pot_scaling.2.2 1001 35000 999999999 (by decide)⟩

/-- Claim C10.  Green-LED discipline of the LED revisions (modelled on
    rev MEGA, whose write structure rev GEH and rev MEGA2 share): setup ends
    by driving the green LED HIGH and writes it nowhere else; an iteration
    without a buzz emits no write at all; an iteration with a buzz at (t, p)
    whose reset wait exits emits exactly green LOW, winner LED HIGH, tone,
    green HIGH, winner LED LOW — the only green writes are the LOW before
    the wait and the HIGH after it, and the green level is back to HIGH
    before the next scan begins; if the wait never exits the iteration stops
    after green LOW, winner LED HIGH, tone, with the green LED left LOW for
    the whole locked period. -/
theorem green_led_discipline :
    (setupEvMega.filterMap greenOf = [HIGH] ∧
     setupEvMega.getLast? = some (Ev.writeGreen HIGH)) ∧
    (∀ (raw : Nat → Nat → Int) (now pot lockT : Nat)
        (waitPolls : List (Nat × Int)),
      scanBuzzers debounceDelayMega HIGH buzzersMega raw now = none →
      loopIterMega raw now pot lockT waitPolls = []) ∧
    (∀ (raw : Nat → Nat → Int) (now pot lockT : Nat)
        (waitPolls : List (Nat × Int)) (t p : Nat),
      scanBuzzers debounceDelayMega HIGH buzzersMega raw now = some (t, p) →
      resetWaitMega (computeDelayReset pot) lockT waitPolls
          ≠ WaitResult.stillWaiting →
      loopIterMega raw now pot lockT waitPolls
          = [Ev.writeGreen LOW, Ev.writeLED (buzzersMega t p).pinLED HIGH,
             Ev.toneE, Ev.writeGreen HIGH,
             Ev.writeLED (buzzersMega t p).pinLED LOW] ∧
        (loopIterMega raw now pot lockT waitPolls).filterMap greenOf
          = [LOW, HIGH] ∧
        greenAfter HIGH (loopIterMega raw now pot lockT waitPolls) = HIGH) ∧
    (∀ (raw : Nat → Nat → Int) (now pot lockT : Nat)
        (waitPolls : List (Nat × Int)) (t p : Nat),
      scanBuzzers debounceDelayMega HIGH buzzersMega raw now = some (t, p) →
      resetWaitMega (computeDelayReset pot) lockT waitPolls
          = WaitResult.stillWaiting →
      loopIterMega raw now pot lockT waitPolls
          = [Ev.writeGreen LOW, Ev.writeLED (buzzersMega t p).pinLED HIGH,
             Ev.toneE] ∧
        (loopIterMega raw now pot lockT waitPolls).filterMap greenOf
          = [LOW]) := by
  refine ⟨⟨by decide, by decide⟩, ?_, ?_, ?_⟩
  · intro raw now pot lockT waitPolls hscan
    unfold loopIterMega
    rw [hscan]
  · intro raw now pot lockT waitPolls t p hscan hwait
    cases hwr : resetWaitMega (computeDelayReset pot) lockT waitPolls with
    | stillWaiting => exact absurd hwr hwait
    | timeoutExit r =>
        unfold loopIterMega
        rw [hscan, hwr]
        exact ⟨rfl, rfl, rfl⟩
    | manualExit r =>
        unfold loopIterMega
        rw [hscan, hwr]
        exact ⟨rfl, rfl, rfl⟩
  · intro raw now pot lockT waitPolls t p hscan hwr
    unfold loopIterMega
    rw [hscan, hwr]
    exact ⟨rfl, rfl⟩

/-- Claim C10 witness: buzzer (0, 0) pressed (raw HIGH) at millis 35000, pot
    sample 500, one wait poll at 35001 with the white button read HIGH
    (manual exit): the iteration emits exactly the five writes and restores
    the green LED to HIGH. -/
theorem green_led_discipline_witness :
    scanBuzzers debounceDelayMega HIGH buzzersMega
        (fun t p => if t = 0 ∧ p = 0 then HIGH else LOW) 35000 = some (0, 0) ∧
    resetWaitMega (computeDelayReset 500) 35000 [(35001, HIGH)]
        ≠ WaitResult.stillWaiting ∧
    (loopIterMega (fun t p => if t = 0 ∧ p = 0 then HIGH else LOW) 35000 500
          35000 [(35001, HIGH)]
        = [Ev.writeGreen LOW, Ev.writeLED (buzzersMega 0 0).pinLED HIGH,
           Ev.toneE, Ev.writeGreen HIGH,
           Ev.writeLED (buzzersMega 0 0).pinLED LOW] ∧
      (loopIterMega (fun t p => if t = 0 ∧ p = 0 then HIGH else LOW) 35000 500
          35000 [(35001, HIGH)]).filterMap greenOf = [LOW, HIGH] ∧
      greenAfter HIGH (loopIterMega (fun t p => if t = 0 ∧ p = 0 then HIGH else LOW)
          35000 500 35000 [(35001, HIGH)]) = HIGH) :=
  ⟨by decide, by decide,
   green_led_discipline.2.2.1 (fun t p => if t = 0 ∧ p = 0 then HIGH else LOW)
     35000 500 35000 [(35001, HIGH)] 0 0 (by decide) (by decide)⟩

end GEH
